import Mathlib

/-
Verification of the script sandbox bridge shim (addBruShimToContext) of the
bruno repository. The shim builds the capability surface (the guest-global
bru object and its nested runner object) inside a quickjs guest, wires each
capability to the host provider, bridges asynchronous host operations into
guest promises, and installs a guest-evaluated bootstrap wrapper for
bru.sendRequest.

Host values are modelled as an inductive JSON-like structure extended with
the two non-serializable JavaScript shapes that matter at the boundary
(undefined and function values). Numbers are modelled as integers; nothing
verified here depends on numeric representation. Arrays and objects are
ordered, mirroring ECMAScript own-property order of plain JSON data.
-/

namespace Bruno

mutual
/-- A host-side JavaScript value at the sandbox boundary. -/
inductive JVal where
  | null : JVal
  | undefined : JVal
  | jfunc : JVal
  | bool (b : Bool) : JVal
  | num (n : Int) : JVal
  | str (s : String) : JVal
  | arr (xs : JArr) : JVal
  | obj (fs : JObj) : JVal
  deriving DecidableEq
/-- An ordered host-side array of values. -/
inductive JArr where
  | nil : JArr
  | cons (hd : JVal) (tl : JArr) : JArr
  deriving DecidableEq
/-- An ordered host-side object: a sequence of string keys with values. -/
inductive JObj where
  | nil : JObj
  | cons (k : String) (v : JVal) (tl : JObj) : JObj
  deriving DecidableEq
end

mutual
/-- A guest-side (vm) value produced by marshalling: JSON-safe by
construction, since every value entering the guest through the codec is
serialized first. -/
inductive GVal where
  | null : GVal
  | bool (b : Bool) : GVal
  | num (n : Int) : GVal
  | str (s : String) : GVal
  | arr (xs : GArr) : GVal
  | obj (fs : GObj) : GVal
  deriving DecidableEq
/-- An ordered guest-side array. -/
inductive GArr where
  | nil : GArr
  | cons (hd : GVal) (tl : GArr) : GArr
  deriving DecidableEq
/-- An ordered guest-side object. -/
inductive GObj where
  | nil : GObj
  | cons (k : String) (v : GVal) (tl : GObj) : GObj
  deriving DecidableEq
end

mutual
/-- Models ECMAScript JSON.parse applied to JSON.stringify of a host value:
none when stringify produces no output (undefined and function values),
otherwise the parsed deep copy. -/
def jsonSerializeRound : JVal → Option JVal
  | .null => some .null
  | .undefined => none
  | .jfunc => none
  | .bool b => some (.bool b)
  | .num n => some (.num n)
  | .str s => some (.str s)
  | .arr xs => some (.arr (jsonSerializeRoundA xs))
  | .obj fs => some (.obj (jsonSerializeRoundO fs))
/-- Array elements that do not serialize become null, as JSON.stringify does. -/
def jsonSerializeRoundA : JArr → JArr
  | .nil => .nil
  | .cons h t => .cons ((jsonSerializeRound h).getD .null) (jsonSerializeRoundA t)
/-- Object members whose value does not serialize are dropped, as JSON.stringify does. -/
def jsonSerializeRoundO : JObj → JObj
  | .nil => .nil
  | .cons k v t =>
    match jsonSerializeRound v with
    | some w => .cons k w (jsonSerializeRoundO t)
    | none => jsonSerializeRoundO t
end

/-- Modelled from the spec: cleanJson lives in the repository utils module,
which is not under src. The spec describes it as a deep copy through a
serialize/deserialize round trip that drops non-serializable members rather
than failing the whole call; when the round trip itself produces nothing
(the value as a whole is not serializable) the original value is returned
unchanged. -/
def cleanJson (v : JVal) : JVal := (jsonSerializeRound v).getD v

/-- Modelled from the spec: cleanCircularJson is the circular-safe variant of
cleanJson from the repository utils module, not under src; it breaks
reference cycles before crossing the boundary. Cycles are not representable
in the inductive value model, and on acyclic values the spec gives the same
serialize/deserialize behaviour. -/
def cleanCircularJson (v : JVal) : JVal := (jsonSerializeRound v).getD v

mutual
/-- Modelled from the spec: marshallToVm is the host-to-guest direction of
the marshalling codec, in a module not under src. Scalars and plain
containers convert structurally, preserving key order and array order;
values that are not JSON-compatible (undefined, functions) degrade to a
serializable approximation (guest null) rather than crossing as live
references. -/
def marshallToVm : JVal → GVal
  | .null => .null
  | .undefined => .null
  | .jfunc => .null
  | .bool b => .bool b
  | .num n => .num n
  | .str s => .str s
  | .arr xs => .arr (marshallToVmA xs)
  | .obj fs => .obj (marshallToVmO fs)
/-- Host-to-guest conversion of an array, element by element in order. -/
def marshallToVmA : JArr → GArr
  | .nil => .nil
  | .cons h t => .cons (marshallToVm h) (marshallToVmA t)
/-- Host-to-guest conversion of an object, member by member in order. -/
def marshallToVmO : JObj → GObj
  | .nil => .nil
  | .cons k v t => .cons k (marshallToVm v) (marshallToVmO t)
end

mutual
/-- Modelled from the spec: vm.dump is the guest-to-host direction of the
marshalling codec, in a module not under src. Guest values convert
structurally, preserving key order and array order. -/
def vmDump : GVal → JVal
  | .null => .null
  | .bool b => .bool b
  | .num n => .num n
  | .str s => .str s
  | .arr xs => .arr (vmDumpA xs)
  | .obj fs => .obj (vmDumpO fs)
/-- Guest-to-host conversion of an array, element by element in order. -/
def vmDumpA : GArr → JArr
  | .nil => .nil
  | .cons h t => .cons (vmDump h) (vmDumpA t)
/-- Guest-to-host conversion of an object, member by member in order. -/
def vmDumpO : GObj → JObj
  | .nil => .nil
  | .cons k v t => .cons k (vmDump v) (vmDumpO t)
end

mutual
/-- A host value is JSON-safe when it contains no undefined or function
values: exactly the scalars and plain containers of the spec. -/
def isJsonSafe : JVal → Bool
  | .null => true
  | .undefined => false
  | .jfunc => false
  | .bool _ => true
  | .num _ => true
  | .str _ => true
  | .arr xs => isJsonSafeA xs
  | .obj fs => isJsonSafeO fs
/-- Every element of the array is JSON-safe. -/
def isJsonSafeA : JArr → Bool
  | .nil => true
  | .cons h t => isJsonSafe h && isJsonSafeA t
/-- Every member value of the object is JSON-safe. -/
def isJsonSafeO : JObj → Bool
  | .nil => true
  | .cons _ v t => isJsonSafe v && isJsonSafeO t
end

/-- JavaScript property access on a host object: the value of the first
member with the given key. -/
def jObjLookup : JObj → String → Option JVal
  | .nil, _ => none
  | .cons k v t, key => if k = key then some v else jObjLookup t key

/-- JavaScript property access v.key as the shim uses it on host error
values (err.message), modelled for non-nullish bases: the member value of an
object (undefined when the key is absent) and undefined for any other
non-nullish primitive. On a nullish base real property access throws a
TypeError instead, which this total function does not model; every theorem
below applies it only under hypotheses that exclude nullish bases. -/
def jsGetProp (v : JVal) (key : String) : JVal :=
  match v with
  | .obj fs => (jObjLookup fs key).getD .undefined
  | _ => .undefined

/-- Property access on a guest object value. -/
def gObjLookup : GObj → String → Option GVal
  | .nil, _ => none
  | .cons k v t, key => if k = key then some v else gObjLookup t key

/-- Whether a guest value is an object carrying a non-empty message member:
the message key is present and its value is neither null nor the empty
string. -/
def hasNonemptyMessageG : GVal → Bool
  | .obj fs =>
    match gObjLookup fs "message" with
    | some (.str s) => !s.isEmpty
    | some .null => false
    | some _ => true
    | none => false
  | _ => false

/-- The message member of a guest value: its value when the guest value is
an object carrying one, none otherwise. -/
def gValMessageMember : GVal → Option GVal
  | .obj fs => gObjLookup fs "message"
  | _ => none

/-- How the guest-visible promise of an asynchronous capability wrapper is
settled once the host operation completes. -/
inductive GuestSettle where
  | resolved (v : GVal) : GuestSettle
  | rejected (v : GVal) : GuestSettle
  deriving DecidableEq

/-- The guest value a settlement carries, whichever way it settles. -/
def settleValue : GuestSettle → GVal
  | .resolved v => v
  | .rejected v => v

/-- Whether a settlement is a rejection (catchable by guest try/catch or a
promise catch handler). -/
def settleIsRejected : GuestSettle → Bool
  | .resolved _ => false
  | .rejected _ => true

/-- Settlement behaviour of the getTestResults wrapper: the wrapper creates
a guest promise, invokes host bru.getTestResults(), resolves with the
marshalled cleaned results on fulfilment, and on host failure RESOLVES the
guest promise with the marshalled cleaned object carrying only a message
member built from err.message. -/
def getTestResultsSettle : Except JVal JVal → GuestSettle
  | .ok results => .resolved (marshallToVm (cleanJson results))
  | .error err =>
    .resolved (marshallToVm (cleanJson (.obj (.cons "message" (jsGetProp err "message") .nil))))

/-- Settlement behaviour of the getAssertionResults wrapper, identical in
structure to getTestResults: resolves on fulfilment, and also resolves (with
the message-only object) on host failure. -/
def getAssertionResultsSettle : Except JVal JVal → GuestSettle
  | .ok results => .resolved (marshallToVm (cleanJson results))
  | .error err =>
    .resolved (marshallToVm (cleanJson (.obj (.cons "message" (jsGetProp err "message") .nil))))

/-- Settlement behaviour of the runRequest wrapper: resolves with the
circular-safe marshalled response on fulfilment, and on host failure also
RESOLVES with the message-only object. -/
def runRequestSettle : Except JVal JVal → GuestSettle
  | .ok response => .resolved (marshallToVm (cleanCircularJson response))
  | .error err =>
    .resolved (marshallToVm (cleanJson (.obj (.cons "message" (jsGetProp err "message") .nil))))

/-- Settlement behaviour of the internal _sendRequest wrapper: resolves with
the circular-safe marshalled response on fulfilment and REJECTS with the
cleaned marshalled host error on failure. -/
def sendRequestSettle : Except JVal JVal → GuestSettle
  | .ok response => .resolved (marshallToVm (cleanCircularJson response))
  | .error err => .rejected (marshallToVm (cleanJson err))

/-- Settlement behaviour of the sleep wrapper: after the timer fires the
guest promise is resolved with the string slept. -/
def sleepSettle : GuestSettle := .resolved (.str "slept")

/-- The outcome guest code observes when awaiting the promise returned by
bru._sendRequest: the resolved value, or the rejected value as a thrown
error. -/
def sendRequestVmOutcome (hostOutcome : Except JVal JVal) : Except GVal GVal :=
  match sendRequestSettle hostOutcome with
  | .resolved v => .ok v
  | .rejected v => .error v

mutual
/-- Models the guest evaluation of JSON.parse applied to JSON.stringify of a
guest value, as the bootstrap wrapper performs on a rejection value: a
structural deep copy, total because marshalled guest values are JSON-safe by
construction. -/
def gJsonRound : GVal → GVal
  | .null => .null
  | .bool b => .bool b
  | .num n => .num n
  | .str s => .str s
  | .arr xs => .arr (gJsonRoundA xs)
  | .obj fs => .obj (gJsonRoundO fs)
/-- Deep copy of a guest array. -/
def gJsonRoundA : GArr → GArr
  | .nil => .nil
  | .cons h t => .cons (gJsonRound h) (gJsonRoundA t)
/-- Deep copy of a guest object. -/
def gJsonRoundO : GObj → GObj
  | .nil => .nil
  | .cons k v t => .cons k (gJsonRound v) (gJsonRoundO t)
end

/-- The guest-evaluated bootstrap wrapper installed as globalThis.bru.sendRequest,
run against a given dispatch outcome of the underlying bru._sendRequest call
and an optional callback. A callback behaviour maps the two arguments it is
invoked with to its own outcome (ok, or a thrown or rejected guest value).
The first component of the result is the settlement of the promise the
wrapper returns, where ok none models resolving with undefined after the
function body runs off its end; the second component records the argument
pairs of every callback invocation, in order. -/
def sendRequestGuest (dispatch : Except GVal GVal)
    (callback : Option (GVal → GVal → Except GVal Unit)) :
    Except GVal (Option GVal) × List (GVal × GVal) :=
  match callback with
  | none =>
    match dispatch with
    | .ok response => (.ok (some response), [])
    | .error e => (.error e, [])
  | some cb =>
    match dispatch with
    | .ok response =>
      match cb GVal.null response with
      | .ok _ => (.ok none, [(GVal.null, response)])
      | .error e => (.error e, [(GVal.null, response)])
    | .error e =>
      let normalized := gJsonRound e
      match cb normalized GVal.null with
      | .ok _ => (.ok none, [(normalized, GVal.null)])
      | .error e2 => (.error e2, [(normalized, GVal.null)])

/-- The guest objects the capability-surface builder writes properties on,
plus the guest global object. -/
inductive BObj where
  | bruObject : BObj
  | bruRunnerObject : BObj
  | globalObj : BObj
  deriving DecidableEq

/-- What a capability wrapper forwards to on the host side. -/
inductive CapTarget where
  | providerTop (name : String) : CapTarget
  | providerRunner (name : String) : CapTarget
  | hostTimer : CapTarget
  deriving DecidableEq

/-- One step of the straight-line capability-surface builder. A consume call
in the source is a setProp step followed by a dispose step of the same
handle. -/
inductive Step where
  | newObject (h : Nat) : Step
  | newFunction (h : Nat) (fnName : String) (target : CapTarget) : Step
  | setProp (o : BObj) (key : String) (h : Nat) : Step
  | setObjProp (o : BObj) (key : String) (v : BObj) : Step
  | dispose (h : Nat) : Step
  | evalBootstrapScript : Step
  deriving DecidableEq

/-- Handle number of the guest object bound to the bru global. -/
def bruObjectHandle : Nat := 0

/-- Handle number of the nested runner object. -/
def bruRunnerHandle : Nat := 1

set_option maxHeartbeats 1600000 in
/-- The allocation, property-wiring and disposal steps performed by
addBruShimToContext, in source order. Handles are numbered in order of
creation: 0 the bru object, 1 the runner object, 2 onward the function
handles. -/
def addBruShimSteps : List Step :=
  [ Step.newObject bruObjectHandle,
    Step.newObject bruRunnerHandle,
    Step.newFunction 2 "cwd" (CapTarget.providerTop "cwd"),
    Step.setProp BObj.bruObject "cwd" 2,
    Step.dispose 2,
    Step.newFunction 3 "getEnvName" (CapTarget.providerTop "getEnvName"),
    Step.setProp BObj.bruObject "getEnvName" 3,
    Step.dispose 3,
    Step.newFunction 4 "getCollectionName" (CapTarget.providerTop "getCollectionName"),
    Step.setProp BObj.bruObject "getCollectionName" 4,
    Step.dispose 4,
    Step.newFunction 5 "getProcessEnv" (CapTarget.providerTop "getProcessEnv"),
    Step.setProp BObj.bruObject "getProcessEnv" 5,
    Step.dispose 5,
    Step.newFunction 6 "interpolate" (CapTarget.providerTop "interpolate"),
    Step.setProp BObj.bruObject "interpolate" 6,
    Step.dispose 6,
    Step.newFunction 7 "hasEnvVar" (CapTarget.providerTop "hasEnvVar"),
    Step.setProp BObj.bruObject "hasEnvVar" 7,
    Step.dispose 7,
    Step.newFunction 8 "getEnvVar" (CapTarget.providerTop "getEnvVar"),
    Step.setProp BObj.bruObject "getEnvVar" 8,
    Step.dispose 8,
    Step.newFunction 9 "setEnvVar" (CapTarget.providerTop "setEnvVar"),
    Step.setProp BObj.bruObject "setEnvVar" 9,
    Step.dispose 9,
    Step.newFunction 10 "deleteEnvVar" (CapTarget.providerTop "deleteEnvVar"),
    Step.setProp BObj.bruObject "deleteEnvVar" 10,
    Step.dispose 10,
    Step.newFunction 11 "getGlobalEnvVar" (CapTarget.providerTop "getGlobalEnvVar"),
    Step.setProp BObj.bruObject "getGlobalEnvVar" 11,
    Step.dispose 11,
    Step.newFunction 12 "getOauth2CredentialVar" (CapTarget.providerTop "getOauth2CredentialVar"),
    Step.setProp BObj.bruObject "getOauth2CredentialVar" 12,
    Step.dispose 12,
    Step.newFunction 13 "setGlobalEnvVar" (CapTarget.providerTop "setGlobalEnvVar"),
    Step.setProp BObj.bruObject "setGlobalEnvVar" 13,
    Step.dispose 13,
    Step.newFunction 14 "hasVar" (CapTarget.providerTop "hasVar"),
    Step.setProp BObj.bruObject "hasVar" 14,
    Step.dispose 14,
    Step.newFunction 15 "getVar" (CapTarget.providerTop "getVar"),
    Step.setProp BObj.bruObject "getVar" 15,
    Step.dispose 15,
    Step.newFunction 16 "setVar" (CapTarget.providerTop "setVar"),
    Step.setProp BObj.bruObject "setVar" 16,
    Step.dispose 16,
    Step.newFunction 17 "deleteVar" (CapTarget.providerTop "deleteVar"),
    Step.setProp BObj.bruObject "deleteVar" 17,
    Step.dispose 17,
    Step.newFunction 18 "deleteAllVars" (CapTarget.providerTop "deleteAllVars"),
    Step.setProp BObj.bruObject "deleteAllVars" 18,
    Step.dispose 18,
    Step.newFunction 19 "setNextRequest" (CapTarget.providerTop "setNextRequest"),
    Step.setProp BObj.bruObject "setNextRequest" 19,
    Step.dispose 19,
    Step.newFunction 20 "skipRequest" (CapTarget.providerRunner "skipRequest"),
    Step.setProp BObj.bruRunnerObject "skipRequest" 20,
    Step.dispose 20,
    Step.newFunction 21 "stopExecution" (CapTarget.providerRunner "stopExecution"),
    Step.setProp BObj.bruRunnerObject "stopExecution" 21,
    Step.dispose 21,
    Step.newFunction 22 "setNextRequest" (CapTarget.providerRunner "setNextRequest"),
    Step.setProp BObj.bruRunnerObject "setNextRequest" 22,
    Step.dispose 22,
    Step.newFunction 23 "visualize" (CapTarget.providerTop "visualize"),
    Step.setProp BObj.bruObject "visualize" 23,
    Step.dispose 23,
    Step.newFunction 24 "getSecretVar" (CapTarget.providerTop "getSecretVar"),
    Step.setProp BObj.bruObject "getSecretVar" 24,
    Step.dispose 24,
    Step.newFunction 25 "getRequestVar" (CapTarget.providerTop "getRequestVar"),
    Step.setProp BObj.bruObject "getRequestVar" 25,
    Step.dispose 25,
    Step.newFunction 26 "getFolderVar" (CapTarget.providerTop "getFolderVar"),
    Step.setProp BObj.bruObject "getFolderVar" 26,
    Step.dispose 26,
    Step.newFunction 27 "getCollectionVar" (CapTarget.providerTop "getCollectionVar"),
    Step.setProp BObj.bruObject "getCollectionVar" 27,
    Step.dispose 27,
    Step.newFunction 28 "getTestResults" (CapTarget.providerTop "getTestResults"),
    Step.setProp BObj.bruObject "getTestResults" 28,
    Step.dispose 28,
    Step.newFunction 29 "getAssertionResults" (CapTarget.providerTop "getAssertionResults"),
    Step.setProp BObj.bruObject "getAssertionResults" 29,
    Step.dispose 29,
    Step.newFunction 30 "runRequest" (CapTarget.providerTop "runRequest"),
    Step.setProp BObj.bruObject "runRequest" 30,
    Step.dispose 30,
    Step.newFunction 31 "_sendRequest" (CapTarget.providerTop "sendRequest"),
    Step.setProp BObj.bruObject "_sendRequest" 31,
    Step.dispose 31,
    Step.newFunction 32 "sleep" CapTarget.hostTimer,
    Step.setProp BObj.bruObject "sleep" 32,
    Step.dispose 32,
    Step.setObjProp BObj.bruObject "runner" BObj.bruRunnerObject,
    Step.setObjProp BObj.globalObj "bru" BObj.bruObject,
    Step.dispose bruObjectHandle,
    Step.evalBootstrapScript ]

/-- Handles allocated by a step sequence (object and function creations), in
order. -/
def allocatedHandles : List Step → List Nat
  | [] => []
  | .newObject h :: r => h :: allocatedHandles r
  | .newFunction h _ _ :: r => h :: allocatedHandles r
  | _ :: r => allocatedHandles r

/-- Handles on which a dispose call is issued by a step sequence, in order. -/
def disposedHandles : List Step → List Nat
  | [] => []
  | .dispose h :: r => h :: disposedHandles r
  | _ :: r => disposedHandles r

/-- The forwarding target recorded for a function handle. -/
def fnTarget : List Step → Nat → Option CapTarget
  | [], _ => none
  | .newFunction h _ t :: r, h2 => if h = h2 then some t else fnTarget r h2
  | _ :: r, h2 => fnTarget r h2

/-- The keys of the function properties set on a given guest object. -/
def fnPropKeys : List Step → BObj → List String
  | [], _ => []
  | .setProp o key _ :: r, o2 => if o = o2 then key :: fnPropKeys r o2 else fnPropKeys r o2
  | _ :: r, o2 => fnPropKeys r o2

/-- The forwarding target of the function property with the given key on the
given guest object. -/
def fnPropTarget (steps : List Step) (o : BObj) (key : String) : Option CapTarget :=
  lookupStep steps
where
  lookupStep : List Step → Option CapTarget
    | [] => none
    | .setProp o2 key2 h :: r => if o2 = o ∧ key2 = key then fnTarget steps h else lookupStep r
    | _ :: r => lookupStep r

/-- The asynchronous capability wrappers installed by the shim. -/
inductive AsyncWrapper where
  | getTestResultsW : AsyncWrapper
  | getAssertionResultsW : AsyncWrapper
  | runRequestW : AsyncWrapper
  | sendRequestW : AsyncWrapper
  | sleepW : AsyncWrapper
  deriving DecidableEq

/-- The host actions a wrapper registers to run once its guest promise has
settled. -/
inductive PostSettleAct where
  | executePendingJobs : PostSettleAct
  deriving DecidableEq

/-- The continuation each asynchronous wrapper registers on promise.settled:
every one of the five registers exactly vm.runtime.executePendingJobs. -/
def afterSettledHooks : AsyncWrapper → List PostSettleAct
  | .getTestResultsW => [.executePendingJobs]
  | .getAssertionResultsW => [.executePendingJobs]
  | .runRequestW => [.executePendingJobs]
  | .sendRequestW => [.executePendingJobs]
  | .sleepW => [.executePendingJobs]

/-- Observable events while the bridge processes host settlements. -/
inductive BridgeEv where
  | hostSettled (op : Nat) : BridgeEv
  | guestPromiseSettled (op : Nat) : BridgeEv
  | pendingJobsDrained (op : Nat) : BridgeEv
  deriving DecidableEq

/-- Host-side processing of one settled operation op handled by wrapper w:
the host outcome arrives, the then or catch handler settles the guest
promise, and the continuations registered on promise.settled run. -/
def settleEvents (op : Nat) (w : AsyncWrapper) : List BridgeEv :=
  .hostSettled op :: .guestPromiseSettled op ::
    (afterSettledHooks w).map (fun _ => .pendingJobsDrained op)

/-- The event trace generated when the listed pending operations complete in
the given order: the guest interpreter is cooperative, so the host event
loop processes one settlement, and the microtasks it queued, before the
next. -/
def bridgeTrace : List (Nat × AsyncWrapper) → List BridgeEv
  | [] => []
  | (op, w) :: rest => settleEvents op w ++ bridgeTrace rest

/-- Whether a trace starts with the pending-jobs drain for the given
operation. -/
def drainCheckHead (op : Nat) : List BridgeEv → Bool
  | .pendingJobsDrained op2 :: _ => op == op2
  | _ => false

/-- Checks that every guest promise settlement in a trace is immediately
followed by a drain of the pending-jobs queue for that same operation, so
that no other host settlement is processed in between. -/
def drainFollowsSettle : List BridgeEv → Bool
  | [] => true
  | .guestPromiseSettled op :: rest => drainCheckHead op rest && drainFollowsSettle rest
  | _ :: rest => drainFollowsSettle rest

/-- Presence of each run-control operation on the host provider runner
sub-object. -/
structure RunnerOps where
  hasSkipRequest : Bool
  hasStopExecution : Bool
  hasSetNextRequest : Bool
  deriving DecidableEq

/-- The host capability provider as the runner wrappers see it: it may lack
the runner sub-object entirely. -/
structure BruProvider where
  runner : Option RunnerOps
  deriving DecidableEq

/-- A guest-visible error thrown while evaluating a wrapper body. -/
inductive JsThrow where
  | typeError : JsThrow
  deriving DecidableEq

/-- A host runner operation actually invoked by a wrapper body. -/
inductive RunnerCall where
  | skipRequestCall : RunnerCall
  | stopExecutionCall : RunnerCall
  | setNextRequestCall (arg : JVal) : RunnerCall
  deriving DecidableEq

/-- Body of the runner skipRequest wrapper, evaluating the optional chain
bru?.runner?.skipRequest() per ECMAScript semantics: a nullish bru or a
nullish bru.runner short-circuits the whole chain to undefined without a
call; otherwise the skipRequest member is fetched and CALLED, which throws a
TypeError when the member is absent. An ok result lists the host calls
performed and delivers undefined to the guest. -/
def runnerSkipRequestBody (bru : Option BruProvider) : Except JsThrow (List RunnerCall) :=
  match bru with
  | none => .ok []
  | some p =>
    match p.runner with
    | none => .ok []
    | some r => if r.hasSkipRequest then .ok [.skipRequestCall] else .error .typeError

/-- Body of the runner stopExecution wrapper, evaluating
bru?.runner?.stopExecution() the same way. -/
def runnerStopExecutionBody (bru : Option BruProvider) : Except JsThrow (List RunnerCall) :=
  match bru with
  | none => .ok []
  | some p =>
    match p.runner with
    | none => .ok []
    | some r => if r.hasStopExecution then .ok [.stopExecutionCall] else .error .typeError

/-- Body of the runner setNextRequest wrapper, evaluating
bru?.runner?.setNextRequest(vm.dump(nextRequest)) the same way: the guest
argument is dumped to host form before the provider call. -/
def runnerSetNextRequestBody (bru : Option BruProvider) (nextRequest : GVal) :
    Except JsThrow (List RunnerCall) :=
  match bru with
  | none => .ok []
  | some p =>
    match p.runner with
    | none => .ok []
    | some r =>
      if r.hasSetNextRequest then .ok [.setNextRequestCall (vmDump nextRequest)]
      else .error .typeError

mutual
/-- Marshalling a JSON-safe host value into the guest and dumping it back
yields the original value. -/
theorem vmDump_marshallToVm : (v : JVal) → isJsonSafe v = true → vmDump (marshallToVm v) = v
  | .null, _ => rfl
  | .bool _, _ => rfl
  | .num _, _ => rfl
  | .str _, _ => rfl
  | .arr xs, h => by
      rw [marshallToVm, vmDump]
      exact congrArg JVal.arr (vmDump_marshallToVmA xs (by simpa [isJsonSafe] using h))
  | .obj fs, h => by
      rw [marshallToVm, vmDump]
      exact congrArg JVal.obj (vmDump_marshallToVmO fs (by simpa [isJsonSafe] using h))
/-- Round trip on arrays of JSON-safe values. -/
theorem vmDump_marshallToVmA : (xs : JArr) → isJsonSafeA xs = true → vmDumpA (marshallToVmA xs) = xs
  | .nil, _ => rfl
  | .cons h t, hs => by
      rw [marshallToVmA, vmDumpA]
      rw [isJsonSafeA, Bool.and_eq_true] at hs
      rw [vmDump_marshallToVm h hs.1, vmDump_marshallToVmA t hs.2]
/-- Round trip on objects with JSON-safe member values. -/
theorem vmDump_marshallToVmO : (fs : JObj) → isJsonSafeO fs = true → vmDumpO (marshallToVmO fs) = fs
  | .nil, _ => rfl
  | .cons k v t, hs => by
      rw [marshallToVmO, vmDumpO]
      rw [isJsonSafeO, Bool.and_eq_true] at hs
      rw [vmDump_marshallToVm v hs.1, vmDump_marshallToVmO t hs.2]
end

/-- The trace checker ignores a leading event as far as the tail is
concerned: a checked trace has a checked tail. -/
theorem drainFollowsSettle_cons (e : BridgeEv) (l : List BridgeEv)
    (h : drainFollowsSettle (e :: l) = true) : drainFollowsSettle l = true := by
  cases e with
  | hostSettled op => simpa [drainFollowsSettle] using h
  | guestPromiseSettled op =>
      rw [drainFollowsSettle, Bool.and_eq_true] at h
      exact h.2
  | pendingJobsDrained op => simpa [drainFollowsSettle] using h

/-- In a checked trace that starts with a guest promise settlement, the very
next event is the pending-jobs drain for the same operation. -/
theorem drainFollowsSettle_head (op : Nat) (post : List BridgeEv)
    (h : drainFollowsSettle (.guestPromiseSettled op :: post) = true) :
    post.head? = some (.pendingJobsDrained op) := by
  rw [drainFollowsSettle, Bool.and_eq_true] at h
  obtain ⟨h1, _⟩ := h
  cases post with
  | nil => simp [drainCheckHead] at h1
  | cons e rest =>
      cases e with
      | hostSettled op2 => simp [drainCheckHead] at h1
      | guestPromiseSettled op2 => simp [drainCheckHead] at h1
      | pendingJobsDrained op2 =>
          rw [drainCheckHead, beq_iff_eq] at h1
          simp [h1]

/-- Anywhere a checked trace contains a guest promise settlement, the event
immediately after it is the pending-jobs drain for that operation. -/
theorem drainFollowsSettle_split (l : List BridgeEv) (hl : drainFollowsSettle l = true) :
    ∀ pre op post, l = pre ++ BridgeEv.guestPromiseSettled op :: post →
      post.head? = some (BridgeEv.pendingJobsDrained op) := by
  intro pre
  induction pre generalizing l with
  | nil =>
      intro op post he
      subst he
      exact drainFollowsSettle_head op post hl
  | cons e pre ih =>
      intro op post he
      subst he
      exact ih _ (drainFollowsSettle_cons e _ hl) op post rfl

/-- Every trace the bridge generates passes the settle-then-drain check,
whatever operations complete and in whatever order. -/
theorem bridgeTrace_drainFollowsSettle (ops : List (Nat × AsyncWrapper)) :
    drainFollowsSettle (bridgeTrace ops) = true := by
  induction ops with
  | nil => rfl
  | cons hd tl ih =>
      obtain ⟨op, w⟩ := hd
      cases w <;>
        simpa [bridgeTrace, settleEvents, afterSettledHooks, drainFollowsSettle,
          drainCheckHead] using ih

/-- Claim C1: without a callback, bru.sendRequest resolves with exactly the
marshalled value the underlying host dispatch produced and rejects exactly
when the host dispatch rejected (with the marshalled cleaned error), and
invokes no callback; with a callback, bru.sendRequest invokes the callback
exactly once per call, with null and the marshalled response when the host
dispatch succeeds and with the normalized error and null when it fails. -/
theorem c1_sendRequest_outcome_and_callback (o : Except JVal JVal)
    (cb : GVal → GVal → Except GVal Unit) :
    ((sendRequestGuest (sendRequestVmOutcome o) none).1
        = match sendRequestVmOutcome o with
          | .ok v => .ok (some v)
          | .error e => .error e)
    ∧ (sendRequestGuest (sendRequestVmOutcome o) none).2 = []
    ∧ ((sendRequestGuest (sendRequestVmOutcome o) (some cb)).2
        = match o with
          | .ok r => [(GVal.null, marshallToVm (cleanCircularJson r))]
          | .error e => [(gJsonRound (marshallToVm (cleanJson e)), GVal.null)]) := by
  refine ⟨?_, ?_, ?_⟩
  · cases o <;> simp [sendRequestGuest, sendRequestVmOutcome, sendRequestSettle]
  · cases o <;> simp [sendRequestGuest, sendRequestVmOutcome, sendRequestSettle]
  · cases o with
    | ok r =>
        cases hc : cb GVal.null (marshallToVm (cleanCircularJson r)) <;>
          simp [sendRequestGuest, sendRequestVmOutcome, sendRequestSettle, hc]
    | error e =>
        cases hc : cb (gJsonRound (marshallToVm (cleanJson e))) GVal.null <;>
          simp [sendRequestGuest, sendRequestVmOutcome, sendRequestSettle, hc]

/-- Claim C2 (code bug): the builder allocates 33 guest handles (the bru
object, the runner object and 31 function handles) but issues only 32
dispose calls; the nested runner object handle is the one allocation never
disposed, while every other handle is disposed exactly once. This
contradicts the stated invariant that every handle, the nested runner object
included, is disposed before the session ends. -/
theorem c2_runner_object_never_disposed :
    (allocatedHandles addBruShimSteps).length = 33
    ∧ (disposedHandles addBruShimSteps).length = 32
    ∧ ((allocatedHandles addBruShimSteps).filter
        (fun h => !((disposedHandles addBruShimSteps).contains h))) = [bruRunnerHandle]
    ∧ addBruShimSteps.contains (Step.newObject bruRunnerHandle) = true
    ∧ ((allocatedHandles addBruShimSteps).all
        (fun h => h == bruRunnerHandle || (disposedHandles addBruShimSteps).count h == 1))
      = true := by
  refine ⟨by decide, by decide, by decide, by decide, by decide⟩

/-- Claim C3 counterexample: when the host operation behind getTestResults,
getAssertionResults or runRequest fails, the wrapper FULFILLS the guest
promise with the message object instead of rejecting it, so the failure is
not surfaced as a rejected async value or thrown error and a guest catch
handler does not fire. -/
theorem c3_counterexample :
    getTestResultsSettle (.error (.obj (.cons "message" (.str "timeout") .nil)))
        = .resolved (.obj (.cons "message" (.str "timeout") .nil))
    ∧ settleIsRejected
        (getTestResultsSettle (.error (.obj (.cons "message" (.str "timeout") .nil)))) = false
    ∧ settleIsRejected
        (getAssertionResultsSettle (.error (.obj (.cons "message" (.str "timeout") .nil)))) = false
    ∧ settleIsRejected
        (runRequestSettle (.error (.obj (.cons "message" (.str "timeout") .nil)))) = false := by
  refine ⟨rfl, rfl, rfl, rfl⟩

/-- Claim C3 amended: a failing host operation is surfaced to the guest with
the normalized message shape, but only the raw request send rejects its
guest promise (catchable by the script); the nested run, test-result and
assertion-result retrievals FULFIL their guest promise with the message-only
object built from the message of the host error. -/
theorem c3_amended_failure_surface (err : JVal) (m : String) :
    (jsGetProp err "message" = .str m →
      getTestResultsSettle (.error err) = .resolved (.obj (.cons "message" (.str m) .nil))
      ∧ getAssertionResultsSettle (.error err) = .resolved (.obj (.cons "message" (.str m) .nil))
      ∧ runRequestSettle (.error err) = .resolved (.obj (.cons "message" (.str m) .nil)))
    ∧ (∀ e : JVal, sendRequestSettle (.error e) = .rejected (marshallToVm (cleanJson e))
        ∧ settleIsRejected (sendRequestSettle (.error e)) = true) := by
  constructor
  · intro h
    refine ⟨?_, ?_, ?_⟩ <;>
      simp [getTestResultsSettle, getAssertionResultsSettle, runRequestSettle, h, cleanJson,
        jsonSerializeRound, jsonSerializeRoundO, marshallToVm, marshallToVmO]
  · intro e
    exact ⟨rfl, rfl⟩

/-- Claim C3 amended, witness at a concrete timing-out host error. -/
theorem c3_amended_failure_surface_witness :
    getTestResultsSettle (.error (.obj (.cons "message" (.str "timeout") .nil)))
        = .resolved (.obj (.cons "message" (.str "timeout") .nil)) :=
  ((c3_amended_failure_surface (.obj (.cons "message" (.str "timeout") .nil)) "timeout").1
    (by decide)).1

/-- Claim C4: once a host operation settles and the corresponding guest
promise is resolved or rejected, the pending-jobs queue of the guest is
drained immediately, before any other host settlement is processed: in every
trace the bridge generates, the event right after a guest promise settlement
is the pending-jobs drain for that same operation. -/
theorem c4_settle_then_drain (ops : List (Nat × AsyncWrapper))
    (pre : List BridgeEv) (op : Nat) (post : List BridgeEv)
    (h : bridgeTrace ops = pre ++ BridgeEv.guestPromiseSettled op :: post) :
    post.head? = some (BridgeEv.pendingJobsDrained op) :=
  drainFollowsSettle_split _ (bridgeTrace_drainFollowsSettle ops) pre op post h

/-- Claim C4, witness on a concrete two-operation completion order. -/
theorem c4_settle_then_drain_witness :
    ([BridgeEv.pendingJobsDrained 0, BridgeEv.hostSettled 1, BridgeEv.guestPromiseSettled 1,
        BridgeEv.pendingJobsDrained 1].head?
      = some (BridgeEv.pendingJobsDrained 0)) :=
  c4_settle_then_drain [(0, .sendRequestW), (1, .getTestResultsW)]
    [BridgeEv.hostSettled 0] 0
    [BridgeEv.pendingJobsDrained 0, BridgeEv.hostSettled 1, BridgeEv.guestPromiseSettled 1,
      BridgeEv.pendingJobsDrained 1] (by rfl)

/-- Claim C5 counterexample: a host error without a message member crosses
the boundary as a guest error object with NO message member at all. On the
message-normalizing path the member built from the undefined err.message is
dropped by the serialize round trip, and on the raw send path the cleaned
error is rejected as is; neither guest value has a non-empty message. -/
theorem c5_counterexample :
    settleValue (getTestResultsSettle (.error (.obj .nil))) = .obj .nil
    ∧ hasNonemptyMessageG (settleValue (getTestResultsSettle (.error (.obj .nil)))) = false
    ∧ sendRequestSettle (.error (.obj (.cons "code" (.num 500) .nil)))
        = .rejected (.obj (.cons "code" (.num 500) .nil))
    ∧ hasNonemptyMessageG
        (settleValue (sendRequestSettle (.error (.obj (.cons "code" (.num 500) .nil))))) = false := by
  refine ⟨rfl, rfl, rfl, rfl⟩

/-- A member whose value is the string m and that is the first member with
its key survives the serialize round trip and marshalling intact: the lookup
on the marshalled cleaned object finds the same string. -/
theorem gObjLookup_clean_str : (fs : JObj) → (key m : String) →
    jObjLookup fs key = some (.str m) →
    gObjLookup (marshallToVmO (jsonSerializeRoundO fs)) key = some (.str m)
  | .nil, key, m, h => by simp [jObjLookup] at h
  | .cons k v t, key, m, h => by
      rw [jObjLookup] at h
      by_cases hk : k = key
      · rw [if_pos hk] at h
        have hv : v = .str m := by injection h
        subst hv
        simp [jsonSerializeRoundO, jsonSerializeRound, marshallToVmO, marshallToVm,
          gObjLookup, hk]
      · rw [if_neg hk] at h
        have ih := gObjLookup_clean_str t key m h
        cases hv : jsonSerializeRound v with
        | some w => simp [jsonSerializeRoundO, hv, marshallToVmO, gObjLookup, hk, ih]
        | none => simp [jsonSerializeRoundO, hv, ih]

/-- A key absent from a host object is absent from the marshalled cleaned
object too: the round trip introduces no members. -/
theorem gObjLookup_clean_none : (fs : JObj) → (key : String) →
    jObjLookup fs key = none →
    gObjLookup (marshallToVmO (jsonSerializeRoundO fs)) key = none
  | .nil, key, _ => by simp [jsonSerializeRoundO, marshallToVmO, gObjLookup]
  | .cons k v t, key, h => by
      rw [jObjLookup] at h
      by_cases hk : k = key
      · rw [if_pos hk] at h
        simp at h
      · rw [if_neg hk] at h
        have ih := gObjLookup_clean_none t key h
        cases hv : jsonSerializeRound v with
        | some w => simp [jsonSerializeRoundO, hv, marshallToVmO, gObjLookup, hk, ih]
        | none => simp [jsonSerializeRoundO, hv, ih]

/-- Claim C5 amended: for a host error object crossing into the guest, when
its message member is a string m every path delivers that message - the
nested-run, test-result and assertion-result paths fulfil the guest promise
with exactly the message-only object, and the raw send path rejects with the
cleaned error object whose message member is still m - non-empty exactly
when m is non-empty; when the error object has no message member, the
guest-visible error value has no message member on any of these paths. -/
theorem c5_amended_message_preservation (fs : JObj) (m : String) :
    (jObjLookup fs "message" = some (.str m) →
      settleValue (getTestResultsSettle (.error (.obj fs)))
          = .obj (.cons "message" (.str m) .nil)
      ∧ settleValue (getAssertionResultsSettle (.error (.obj fs)))
          = .obj (.cons "message" (.str m) .nil)
      ∧ settleValue (runRequestSettle (.error (.obj fs)))
          = .obj (.cons "message" (.str m) .nil)
      ∧ hasNonemptyMessageG (settleValue (getTestResultsSettle (.error (.obj fs))))
          = !m.isEmpty
      ∧ settleIsRejected (sendRequestSettle (.error (.obj fs))) = true
      ∧ gValMessageMember (settleValue (sendRequestSettle (.error (.obj fs))))
          = some (.str m))
    ∧ (jObjLookup fs "message" = none →
      settleValue (getTestResultsSettle (.error (.obj fs))) = .obj .nil
      ∧ settleValue (getAssertionResultsSettle (.error (.obj fs))) = .obj .nil
      ∧ settleValue (runRequestSettle (.error (.obj fs))) = .obj .nil
      ∧ gValMessageMember (settleValue (sendRequestSettle (.error (.obj fs)))) = none) := by
  constructor
  · intro h
    have hm : jsGetProp (.obj fs) "message" = .str m := by simp [jsGetProp, h]
    refine ⟨?_, ?_, ?_, ?_, rfl, ?_⟩
    · simp [getTestResultsSettle, settleValue, hm, cleanJson, jsonSerializeRound,
        jsonSerializeRoundO, marshallToVm, marshallToVmO]
    · simp [getAssertionResultsSettle, settleValue, hm, cleanJson, jsonSerializeRound,
        jsonSerializeRoundO, marshallToVm, marshallToVmO]
    · simp [runRequestSettle, settleValue, hm, cleanCircularJson, cleanJson,
        jsonSerializeRound, jsonSerializeRoundO, marshallToVm, marshallToVmO]
    · simp [getTestResultsSettle, settleValue, hm, cleanJson, jsonSerializeRound,
        jsonSerializeRoundO, marshallToVm, marshallToVmO, hasNonemptyMessageG, gObjLookup]
    · simp only [sendRequestSettle, settleValue, cleanJson, jsonSerializeRound,
        Option.getD_some, marshallToVm, gValMessageMember]
      exact gObjLookup_clean_str fs "message" m h
  · intro h
    have hm : jsGetProp (.obj fs) "message" = .undefined := by simp [jsGetProp, h]
    refine ⟨?_, ?_, ?_, ?_⟩
    · simp [getTestResultsSettle, settleValue, hm, cleanJson, jsonSerializeRound,
        jsonSerializeRoundO, marshallToVm, marshallToVmO]
    · simp [getAssertionResultsSettle, settleValue, hm, cleanJson, jsonSerializeRound,
        jsonSerializeRoundO, marshallToVm, marshallToVmO]
    · simp [runRequestSettle, settleValue, hm, cleanCircularJson, cleanJson,
        jsonSerializeRound, jsonSerializeRoundO, marshallToVm, marshallToVmO]
    · simp only [sendRequestSettle, settleValue, cleanJson, jsonSerializeRound,
        Option.getD_some, marshallToVm, gValMessageMember]
      exact gObjLookup_clean_none fs "message" h

/-- Claim C5 amended, witness at a concrete host error object carrying the
message boom. -/
theorem c5_amended_message_preservation_witness :
    settleValue (getTestResultsSettle (.error (.obj (.cons "message" (.str "boom") .nil))))
      = .obj (.cons "message" (.str "boom") .nil) :=
  (((c5_amended_message_preservation (.cons "message" (.str "boom") .nil) "boom").1
    (by decide))).1

/-- Claim C6 counterexample: the top-level bru context object exposes
neither skipRequest nor stopExecution; of the three run-control operations
only setNextRequest is a top-level member, so the claimed top-level
duplication of all three does not hold. -/
theorem c6_counterexample :
    ((fnPropKeys addBruShimSteps BObj.bruObject).contains "skipRequest") = false
    ∧ ((fnPropKeys addBruShimSteps BObj.bruObject).contains "stopExecution") = false := by
  refine ⟨by decide, by decide⟩

/-- Claim C6 amended: the nested runner namespace exposes all three
run-control operations, each forwarding to the matching operation of the
provider runner sub-object; at top level only setNextRequest is exposed, and
it forwards to the top-level provider setNextRequest, not to the runner
sub-object; the runner object is attached to bru and bru to the guest
global. -/
theorem c6_amended_run_control_exposure :
    fnPropKeys addBruShimSteps BObj.bruRunnerObject
        = ["skipRequest", "stopExecution", "setNextRequest"]
    ∧ fnPropTarget addBruShimSteps BObj.bruRunnerObject "skipRequest"
        = some (.providerRunner "skipRequest")
    ∧ fnPropTarget addBruShimSteps BObj.bruRunnerObject "stopExecution"
        = some (.providerRunner "stopExecution")
    ∧ fnPropTarget addBruShimSteps BObj.bruRunnerObject "setNextRequest"
        = some (.providerRunner "setNextRequest")
    ∧ fnPropTarget addBruShimSteps BObj.bruObject "setNextRequest"
        = some (.providerTop "setNextRequest")
    ∧ addBruShimSteps.contains (Step.setObjProp BObj.bruObject "runner" BObj.bruRunnerObject)
        = true
    ∧ addBruShimSteps.contains (Step.setObjProp BObj.globalObj "bru" BObj.bruObject) = true := by
  refine ⟨by decide, by decide, by decide, by decide, by decide, by decide, by decide⟩

/-- Claim C7: when bru.sendRequest runs with a callback, an error thrown by
the callback itself, on the success branch as well as on the failure branch,
becomes a rejected outcome of the sendRequest call instead of escaping
uncaught. -/
theorem c7_callback_thrown_error_rejects (r e thrown : GVal)
    (cb : GVal → GVal → Except GVal Unit) :
    (cb GVal.null r = .error thrown →
        (sendRequestGuest (.ok r) (some cb)).1 = .error thrown)
    ∧ (cb (gJsonRound e) GVal.null = .error thrown →
        (sendRequestGuest (.error e) (some cb)).1 = .error thrown) := by
  constructor <;> intro h <;> simp [sendRequestGuest, h]

/-- Claim C7, witness with a callback that always throws. -/
theorem c7_callback_thrown_error_rejects_witness :
    (sendRequestGuest (.ok GVal.null)
        (some (fun _ _ => .error (GVal.str "callback boom")))).1
      = .error (GVal.str "callback boom") :=
  (c7_callback_thrown_error_rejects GVal.null GVal.null (GVal.str "callback boom")
    (fun _ _ => .error (GVal.str "callback boom"))).1 rfl

/-- Claim C8: marshalling a JSON-safe scalar or plain container host value
into the guest and dumping it back yields a value equal to the original,
key order and array order included, because both directions of the codec
convert structurally in order. -/
theorem c8_codec_round_trip (v : JVal) (h : isJsonSafe v = true) :
    vmDump (marshallToVm v) = v :=
  vmDump_marshallToVm v h

/-- Claim C8, witness on a concrete nested container. -/
theorem c8_codec_round_trip_witness :
    isJsonSafe (.obj (.cons "a" (.num 1)
        (.cons "b" (.arr (.cons (.str "x") (.cons .null .nil))) .nil))) = true
    ∧ vmDump (marshallToVm (.obj (.cons "a" (.num 1)
        (.cons "b" (.arr (.cons (.str "x") (.cons .null .nil))) .nil))))
      = .obj (.cons "a" (.num 1)
        (.cons "b" (.arr (.cons (.str "x") (.cons .null .nil))) .nil)) :=
  ⟨by decide, c8_codec_round_trip (.obj (.cons "a" (.num 1)
        (.cons "b" (.arr (.cons (.str "x") (.cons .null .nil))) .nil))) (by decide)⟩

/-- Claim C9: when bru.sendRequest runs with a callback and both the
dispatch and the callback complete without error, the promise the wrapper
returns resolves with undefined; the response reaches only the callback,
never the awaiter. -/
theorem c9_callback_success_resolves_undefined (r : GVal)
    (cb : GVal → GVal → Except GVal Unit) (h : cb GVal.null r = .ok ()) :
    (sendRequestGuest (.ok r) (some cb)).1 = .ok none
    ∧ (sendRequestGuest (.ok r) (some cb)).2 = [(GVal.null, r)] := by
  constructor <;> simp [sendRequestGuest, h]

/-- Claim C9, witness with a callback that returns normally. -/
theorem c9_callback_success_resolves_undefined_witness :
    (sendRequestGuest (.ok (GVal.str "resp")) (some (fun _ _ => .ok ()))).1 = .ok none :=
  (c9_callback_success_resolves_undefined (GVal.str "resp") (fun _ _ => .ok ()) rfl).1

/-- Claim C10 counterexample: when the provider has a runner sub-object that
lacks the invoked operation, the runner wrappers are not a no-op: the
optional chain guards only bru and bru.runner, so fetching the absent member
and calling it throws a TypeError into the guest. -/
theorem c10_counterexample :
    runnerSkipRequestBody (some ⟨some ⟨false, false, false⟩⟩) = .error .typeError
    ∧ runnerStopExecutionBody (some ⟨some ⟨false, false, false⟩⟩) = .error .typeError
    ∧ runnerSetNextRequestBody (some ⟨some ⟨false, false, false⟩⟩) (.str "next")
        = .error .typeError := by
  refine ⟨rfl, rfl, rfl⟩

/-- Claim C10 amended: when the provider lacks the runner sub-object (or the
provider itself is nullish) the runner wrappers are no-ops returning
undefined, because the optional chain short-circuits; when the runner
sub-object is present and has the operation, the wrapper forwards to it,
dumping the guest argument for setNextRequest. -/
theorem c10_amended_optional_chaining (p : BruProvider) (r : RunnerOps) (next : GVal) :
    (p.runner = none →
      runnerSkipRequestBody (some p) = .ok []
      ∧ runnerStopExecutionBody (some p) = .ok []
      ∧ runnerSetNextRequestBody (some p) next = .ok [])
    ∧ runnerSkipRequestBody none = .ok []
    ∧ (r.hasSkipRequest = true → runnerSkipRequestBody (some ⟨some r⟩) = .ok [.skipRequestCall])
    ∧ (r.hasStopExecution = true →
        runnerStopExecutionBody (some ⟨some r⟩) = .ok [.stopExecutionCall])
    ∧ (r.hasSetNextRequest = true →
        runnerSetNextRequestBody (some ⟨some r⟩) next
          = .ok [.setNextRequestCall (vmDump next)]) := by
  obtain ⟨pr⟩ := p
  refine ⟨?_, rfl, ?_, ?_, ?_⟩
  · intro h
    simp only at h
    subst h
    exact ⟨rfl, rfl, rfl⟩
  · intro h
    simp [runnerSkipRequestBody, h]
  · intro h
    simp [runnerStopExecutionBody, h]
  · intro h
    simp [runnerSetNextRequestBody, h]

/-- Claim C10 amended, witness at a provider with no runner sub-object and
at one with a complete runner sub-object. -/
theorem c10_amended_optional_chaining_witness :
    runnerSkipRequestBody (some ⟨none⟩) = .ok []
    ∧ runnerSetNextRequestBody (some ⟨some ⟨true, true, true⟩⟩) (.str "next")
        = .ok [.setNextRequestCall (.str "next")] :=
  ⟨((c10_amended_optional_chaining ⟨none⟩ ⟨true, true, true⟩ (.str "next")).1 rfl).1,
    ((c10_amended_optional_chaining ⟨none⟩ ⟨true, true, true⟩ (.str "next")).2.2.2.2 rfl)⟩

end Bruno
